import Mathlib

/-
Verification of the keypath operation core of `rust-prelude-plus`.

The Rust sources are embedded shallowly:

* `KeyPaths<T, V>` (the accessor type from the external `key_paths_core`
  crate) is represented by its pure read function.  Where an operation uses
  the infallible `KeyPath` trait of `src/higher_order.rs` (whose `get`
  returns `&V` directly) the accessor is a total function `T -> V`; where an
  operation goes through `KeyPathsOperable::get_at_keypath` of
  `src/traits.rs` (which wraps `keypath.get(self) : Option<&V>`) the
  accessor is `T -> Option V`.
* `Vec<T>` and slices become `List T`, machine integers become `Nat`.
* `Result<A, KeyPathError>` becomes `Except KeyPathError A`.
* Code that can abort the process (the `unwrap_or_else(.. abort ..)` calls
  on absent reads) returns a `RunOutcome` so that an abort is a visible
  outcome distinct from any `Result`.
* rayon's data-parallel combinators are modelled by an explicit chunking of
  the input (a `List (List T)` whose flattening is the collection): each
  chunk is processed by one worker and the engine reassembles chunk results
  in index order, except for `find_any`, whose result depends on the order
  in which workers complete, and `reduce`, which seeds every chunk with the
  caller's identity value.
-/

namespace RustPreludePlus

/-- Error type, from `src/src/error.rs` (`KeyPathError`). -/
inductive KeyPathError where
  | InvalidAccess (message : String)
  | TypeMismatch (expected found : String)
  | RuntimeFailure (message : String)
  | CollectionError (message : String)
  | AsyncError (message : String)
  | ParallelError (message : String)
deriving DecidableEq, Repr

/-- Result alias, from `src/src/error.rs` (`KeyPathResult<T>`). -/
abbrev KeyPathResult (α : Type) := Except KeyPathError α

/-- Outcome of running code that may abort the process: either a normal
return value or an abort carrying the abort message. -/
inductive RunOutcome (α : Type) where
  | ok (value : α)
  | panicked (message : String)
deriving DecidableEq, Repr

namespace Traits

variable {T V R B : Type}

/-- From `src/src/traits.rs`, `KeyPathsOperable::get_at_keypath`:
`keypath.get(self).ok_or_else(InvalidAccess)`. -/
def get_at_keypath (data : T) (keypath : T → Option V) : KeyPathResult V :=
  match keypath data with
  | some v => .ok v
  | none => .error (.InvalidAccess "KeyPath access failed")

/-- From `src/src/traits.rs`, `KeyPathsOperable::set_at_keypath`: takes
`&mut self` and unconditionally returns `Err(InvalidAccess)`.  The embedding
passes the mutable receiver explicitly and returns the post-state alongside
the `Result<(), _>`. -/
def set_at_keypath (data : T) (_keypath : T → Option V) (_value : V) :
    KeyPathResult Unit × T :=
  (.error (.InvalidAccess "KeyPath mutation not supported in this context"), data)

/-- From `src/src/traits.rs`, `KeyPathsIterator::map_keypath`: maps over the
iterator, aborting (`unwrap_or_else(.. abort ..)`) when a read is absent,
and returns a plain `Vec<R>` (not a `Result`). -/
def map_keypath : List T → (T → Option V) → (V → R) → RunOutcome (List R)
  | [], _, _ => .ok []
  | item :: rest, keypath, f =>
    match get_at_keypath item keypath with
    | .ok value =>
      match map_keypath rest keypath f with
      | .ok out => .ok (f value :: out)
      | .panicked m => .panicked m
    | .error _ => .panicked "KeyPath access failed in map_keypath"

/-- From `src/src/traits.rs`, `KeyPathsIterator::fold_keypath`: folds in
iteration order, silently skipping every element whose read is absent
(`if let Ok(value) = ..`), and always returns `Ok`. -/
def fold_keypath (collection : List T) (keypath : T → Option V) (init : B)
    (f : B → V → B) : KeyPathResult B :=
  .ok (collection.foldl
    (fun acc item =>
      match get_at_keypath item keypath with
      | .ok value => f acc value
      | .error _ => acc)
    init)

/-- From `src/src/traits.rs`, `KeyPathsIterator::collect_keypath`: pushes the
value of every element whose read is present, silently skipping absent ones,
and always returns `Ok`. -/
def collect_keypath (collection : List T) (keypath : T → Option V) :
    KeyPathResult (List V) :=
  .ok (collection.foldl
    (fun result item =>
      match get_at_keypath item keypath with
      | .ok value => result ++ [value]
      | .error _ => result)
    [])

/-- The `groups.entry(key).or_insert_with(Vec::new).push(item)` step of
`group_by_keypath`, on an association-list model of the hash map (one entry
per key, buckets in insertion order). -/
def insertGroup [DecidableEq V] : List (V × List T) → V → T → List (V × List T)
  | [], key, item => [(key, [item])]
  | (k, bucket) :: rest, key, item =>
    if k = key then (k, bucket ++ [item]) :: rest
    else (k, bucket) :: insertGroup rest key item

/-- From `src/src/traits.rs`, `KeyPathsCollection::group_by_keypath` for
`Vec<T>`: buckets elements by `f` of the read value, silently skipping
elements whose read is absent, and always returns `Ok`.  The `HashMap` is
modelled as an association list keyed by first insertion. -/
def group_by_keypath [DecidableEq V] (collection : List T)
    (keypath : T → Option V) (f : V → V) : KeyPathResult (List (V × List T)) :=
  .ok (collection.foldl
    (fun groups item =>
      match get_at_keypath item keypath with
      | .ok value => insertGroup groups (f value) item
      | .error _ => groups)
    [])

/-- From `src/src/traits.rs`, `KeyPathsCollection::partition_by_keypath` for
`Vec<T>`: pushes each element with a present read into the left or right
half by the predicate, silently dropping elements whose read is absent, and
always returns `Ok`. -/
def partition_by_keypath (collection : List T) (keypath : T → Option V)
    (predicate : V → Bool) : KeyPathResult (List T × List T) :=
  .ok (collection.foldl
    (fun halves item =>
      match get_at_keypath item keypath with
      | .ok value =>
        if predicate value then (halves.1 ++ [item], halves.2)
        else (halves.1, halves.2 ++ [item])
      | .error _ => halves)
    ([], []))

end Traits

namespace HigherOrder

variable {T V R B : Type}

/-- From `src/src/higher_order.rs`, `map_keypath_collection`: the `KeyPath`
trait there is infallible (`get` returns `&V`), so the accessor is total. -/
def map_keypath_collection (collection : List T) (keypath : T → V)
    (f : V → R) : KeyPathResult (List R) :=
  .ok (collection.map fun item => f (keypath item))

/-- From `src/src/higher_order.rs`, `filter_by_keypath`. -/
def filter_by_keypath (collection : List T) (keypath : T → V)
    (predicate : V → Bool) : KeyPathResult (List T) :=
  .ok (collection.filter fun item => predicate (keypath item))

/-- From `src/src/higher_order.rs`, `fold_keypath`: left fold in index
order seeded with `init`. -/
def fold_keypath (collection : List T) (keypath : T → V) (init : B)
    (f : B → V → B) : KeyPathResult B :=
  .ok (collection.foldl (fun acc item => f acc (keypath item)) init)

/-- From `src/src/higher_order.rs`, `find_by_keypath`: scans in index order
and returns at the first match. -/
def find_by_keypath (collection : List T) (keypath : T → V)
    (predicate : V → Bool) : KeyPathResult (Option T) :=
  .ok (collection.find? fun item => predicate (keypath item))

/-- From `src/src/higher_order.rs`, `collect_keypath`: clones the read value
of every element in order. -/
def collect_keypath (collection : List T) (keypath : T → V) :
    KeyPathResult (List V) :=
  .ok (collection.map keypath)

/-- From `src/src/higher_order.rs`, `sort_by_keypath`: `slice::sort_by`,
which the Rust standard library documents as a stable sort by the supplied
comparator; embedded as a stable merge sort ordering `a` before `b` when the
comparator does not answer `Greater`. -/
def sort_by_keypath (collection : List T) (keypath : T → V)
    (compare : V → V → Ordering) : KeyPathResult (List T) :=
  .ok (collection.mergeSort fun a b => (compare (keypath a) (keypath b)).isLE)

end HigherOrder

namespace Collections

variable {T V R : Type}

/-- From `src/src/collections.rs`, `collect_keypath` for `Vec<T>`: aborts
(`unwrap_or_else(.. abort ..)`) at the first element whose read is absent,
otherwise returns `Ok` of all values in order. -/
def collect_keypath : List T → (T → Option V) → RunOutcome (KeyPathResult (List V))
  | [], _ => .ok (.ok [])
  | item :: rest, keypath =>
    match Traits.get_at_keypath item keypath with
    | .ok value =>
      match collect_keypath rest keypath with
      | .ok (.ok out) => .ok (.ok (value :: out))
      | other => other
    | .error _ => .panicked "KeyPath access failed in collect_keypath"

/-- From `src/src/collections.rs`, `any_by_keypath` (total-accessor case:
every read present). -/
def any_by_keypath (collection : List T) (keypath : T → V)
    (predicate : V → Bool) : KeyPathResult Bool :=
  .ok (collection.any fun item => predicate (keypath item))

/-- From `src/src/collections.rs`, `all_by_keypath` (total-accessor case). -/
def all_by_keypath (collection : List T) (keypath : T → V)
    (predicate : V → Bool) : KeyPathResult Bool :=
  .ok (collection.all fun item => predicate (keypath item))

/-- From `src/src/collections.rs`, `count_by_keypath` (total-accessor
case). -/
def count_by_keypath (collection : List T) (keypath : T → V)
    (predicate : V → Bool) : KeyPathResult Nat :=
  .ok (collection.countP fun item => predicate (keypath item))

/-- From `src/src/collections.rs`, `window_by_keypath` (total-accessor
case): rejects `window_size == 0 || window_size > len`, otherwise applies
`f` to each length-`window_size` slice of read values, for
`i in 0 ..= len - window_size`. -/
def window_by_keypath (collection : List T) (keypath : T → V)
    (window_size : Nat) (f : List V → R) : KeyPathResult (List R) :=
  if window_size = 0 ∨ window_size > collection.length then
    .error (.CollectionError ("Invalid window size: " ++ toString window_size))
  else
    .ok ((List.range (collection.length - window_size + 1)).map fun i =>
      f (((collection.drop i).take window_size).map keypath))

end Collections

namespace Parallel

variable {T V R B : Type}

/-- From `src/src/parallel.rs`, `par_map_keypath` (total-accessor case:
every read present, so the abort on absence is not reached): rayon's
`par_iter().map(..).collect()` splits the input into per-worker chunks and
reassembles the mapped chunks by original index.  `chunks` is the split;
its flattening is the input collection. -/
def par_map_keypath (chunks : List (List T)) (keypath : T → V) (f : V → R) :
    KeyPathResult (List R) :=
  .ok ((chunks.map fun chunk => chunk.map fun item => f (keypath item)).flatten)

/-- From `src/src/parallel.rs`, `par_filter_by_keypath` (total-accessor
case): rayon's `par_iter().filter(..).cloned().collect()` keeps index
order. -/
def par_filter_by_keypath (chunks : List (List T)) (keypath : T → V)
    (predicate : V → Bool) : KeyPathResult (List T) :=
  .ok ((chunks.map fun chunk =>
    chunk.filter fun item => predicate (keypath item)).flatten)

/-- From `src/src/parallel.rs`, `par_collect_keypath` (total-accessor
case). -/
def par_collect_keypath (chunks : List (List T)) (keypath : T → V) :
    KeyPathResult (List V) :=
  .ok ((chunks.map fun chunk => chunk.map keypath).flatten)

/-- From `src/src/parallel.rs`, `par_count_by_keypath` (total-accessor
case): per-chunk counts are summed. -/
def par_count_by_keypath (chunks : List (List T)) (keypath : T → V)
    (predicate : V → Bool) : KeyPathResult Nat :=
  .ok ((chunks.map fun chunk =>
    chunk.countP fun item => predicate (keypath item)).sum)

/-- From `src/src/parallel.rs`, `par_any_by_keypath` (total-accessor case):
the per-chunk disjunctions are combined by logical or. -/
def par_any_by_keypath (chunks : List (List T)) (keypath : T → V)
    (predicate : V → Bool) : KeyPathResult Bool :=
  .ok (chunks.any fun chunk => chunk.any fun item => predicate (keypath item))

/-- From `src/src/parallel.rs`, `par_all_by_keypath` (total-accessor case):
the per-chunk conjunctions are combined by logical and. -/
def par_all_by_keypath (chunks : List (List T)) (keypath : T → V)
    (predicate : V → Bool) : KeyPathResult Bool :=
  .ok (chunks.all fun chunk => chunk.all fun item => predicate (keypath item))

/-- From `src/src/parallel.rs`, `par_find_by_keypath` (total-accessor case):
rayon's `find_any` returns whichever match a worker reaches first in time,
not the match of lowest index.  `completed` lists the chunks in worker
completion order (a permutation of the split); the first match of the
earliest-completing chunk that has one is returned. -/
def par_find_by_keypath (completed : List (List T)) (keypath : T → V)
    (predicate : V → Bool) : KeyPathResult (Option T) :=
  .ok (completed.flatten.find? fun item => predicate (keypath item))

/-- From `src/src/parallel.rs`, `par_fold_keypath` (total-accessor case):
rayon's `fold(init.clone(), f).reduce(init, f)` folds every chunk seeded
with its own copy of `init` and then reduces the chunk results, again seeded
with `init`.  The final reduction is taken left-to-right in chunk order (one
representative rayon schedule; any other join tree coincides with it exactly
when `f` is associative and `init` is an identity).  Note that the `reduce`
step applies `f : Fn(B, &V) -> B` to two accumulators, which forces
`V = B` at every use of this function, so both live in one type here. -/
def par_fold_keypath (chunks : List (List T)) (keypath : T → B) (init : B)
    (f : B → B → B) : KeyPathResult B :=
  .ok (List.foldl f init (chunks.map fun chunk =>
    chunk.foldl (fun acc item => f acc (keypath item)) init))

/-- From `src/src/parallel.rs`, `par_sort_by_keypath` (total-accessor case):
rayon's `par_sort_by` is documented as a stable parallel sort computing the
same ordering as `slice::sort_by`; embedded as the same stable merge sort as
the sequential operation. -/
def par_sort_by_keypath (collection : List T) (keypath : T → V)
    (compare : V → V → Ordering) : KeyPathResult (List T) :=
  .ok (collection.mergeSort fun a b => (compare (keypath a) (keypath b)).isLE)

/-- Worker pool handle: the only observable attribute the embedding needs is
the number of threads the pool was built with. -/
structure ThreadPool where
  numThreads : Nat
deriving DecidableEq, Repr

/-- Modelled from rayon's documented `ThreadPoolBuilder` semantics (the
builder itself is library code outside this repository): requesting
`num_threads == 0` is specified to mean "select the number of threads
automatically" and builds successfully; `build` fails only on an operating
system error while spawning threads, modelled by the `spawnFailure`
parameter. -/
def thread_pool_build (spawnFailure : Option String)
    (availableParallelism : Nat) (num_threads : Nat) :
    Except String ThreadPool :=
  match spawnFailure with
  | some e => .error e
  | none =>
    .ok { numThreads := if num_threads = 0 then availableParallelism else num_threads }

/-- From `src/src/parallel.rs`, `parallel_pools::create_keypath_thread_pool`:
`ThreadPoolBuilder::new().num_threads(n).build()`, converting a build error
into `ParallelError`. -/
def create_keypath_thread_pool (spawnFailure : Option String)
    (availableParallelism : Nat) (num_threads : Nat) :
    KeyPathResult ThreadPool :=
  match thread_pool_build spawnFailure availableParallelism num_threads with
  | .ok pool => .ok pool
  | .error e => .error (.ParallelError ("Failed to create thread pool: " ++ e))

end Parallel

namespace AsyncOps

variable {T V R B : Type}

/-- From `src/src/async_ops.rs`, `async_collections::map_keypath_async`:
`stream::iter(collection).map(..).collect()` — the cooperative scheduler
pulls the in-memory elements one by one in order. -/
def map_keypath_async (collection : List T) (keypath : T → V) (f : V → R) :
    KeyPathResult (List R) :=
  .ok (collection.map fun item => f (keypath item))

/-- From `src/src/async_ops.rs`, `async_collections::filter_by_keypath_async`. -/
def filter_by_keypath_async (collection : List T) (keypath : T → V)
    (predicate : V → Bool) : KeyPathResult (List T) :=
  .ok (collection.filter fun item => predicate (keypath item))

/-- From `src/src/async_ops.rs`, `AsyncKeyPathIterator::find_by_keypath` as
used by `find_by_keypath_async`: a `while let Some(item) = stream.next()`
loop returning at the first match. -/
def find_by_keypath_async : List T → (T → V) → (V → Bool) → KeyPathResult (Option T)
  | [], _, _ => .ok none
  | item :: rest, keypath, predicate =>
    if predicate (keypath item) then .ok (some item)
    else find_by_keypath_async rest keypath predicate

/-- From `src/src/async_ops.rs`, `AsyncKeyPathIterator::fold_keypath` as used
by `fold_keypath_async`: a `while let` loop accumulating in stream order. -/
def fold_keypath_async : List T → (T → V) → B → (B → V → B) → KeyPathResult B
  | [], _, acc, _ => .ok acc
  | item :: rest, keypath, acc, f =>
    fold_keypath_async rest keypath (f acc (keypath item)) f

end AsyncOps

namespace SpecModel

/-- Modelled from the spec: the accessor type `Path<S,T>` / `KeyPaths` and
its composition live in the external `key_paths_core` crate, not under
`src/`; only its callers are in this repository.  The spec's contract: a
pure read `S -> Option<T>` (absence is a first-class outcome), and
`then(self, next)` builds an accessor whose read is
`next.get(self.get(source)?)`, short-circuiting on `None`. -/
@[ext]
structure KeyPathSpec (S T : Type) where
  get : S → Option T

/-- Modelled from the spec: `compose(p, q)`, denoted `p.then(q)` — the
composed read is `next.get(self.get(source)?)`. -/
def KeyPathSpec.compose {S T U : Type} (p : KeyPathSpec S T)
    (q : KeyPathSpec T U) : KeyPathSpec S U :=
  ⟨fun source =>
    match p.get source with
    | some mid => q.get mid
    | none => none⟩

end SpecModel

end RustPreludePlus

namespace RustPreludePlus

/-- C10: for every value, keypath, and new value, `set_at_keypath` returns
`Err(InvalidAccess)` and leaves the target value unchanged — writing through
a keypath never succeeds via this public interface. -/
theorem C10_set_at_keypath_always_fails {T V : Type} (data : T)
    (keypath : T → Option V) (value : V) :
    (Traits.set_at_keypath data keypath value).1 =
      .error (.InvalidAccess "KeyPath mutation not supported in this context")
    ∧ (Traits.set_at_keypath data keypath value).2 = data := by
  exact ⟨rfl, rfl⟩

/-- C5: for every collection, keypath, and transform `f`, `map` returns a
collection of the same length whose `i`-th element is `f` of the value the
accessor extracts from the `i`-th input element, in input order. -/
theorem C5_map_pointwise {T V R : Type} (collection : List T) (keypath : T → V)
    (f : V → R) :
    ∃ out, HigherOrder.map_keypath_collection collection keypath f = .ok out
      ∧ out.length = collection.length
      ∧ ∀ i : Nat, out[i]? = (collection[i]?).map fun item => f (keypath item) := by
  refine ⟨collection.map fun item => f (keypath item), rfl, by simp, ?_⟩
  intro i
  simp [List.getElem?_map]

/-- C4: accessor composition is associative on every input, and a composed
read whose first segment is absent short-circuits to absence, never a
fault. -/
theorem C4_compose_assoc {S T U W : Type} (p : SpecModel.KeyPathSpec S T)
    (q : SpecModel.KeyPathSpec T U) (r : SpecModel.KeyPathSpec U W) :
    (p.compose q).compose r = p.compose (q.compose r)
    ∧ ∀ source, p.get source = none → (p.compose q).get source = none := by
  constructor
  · ext source
    simp only [SpecModel.KeyPathSpec.compose]
    cases p.get source <;> rfl
  · intro source h
    simp only [SpecModel.KeyPathSpec.compose, h]

/-- C4 witness: the composed read of a concrete always-absent accessor with
a successor accessor is absent at a concrete input. -/
theorem C4_compose_assoc_witness :
    ((⟨fun _ => none⟩ : SpecModel.KeyPathSpec Nat Nat).compose
      ⟨fun n => some n⟩).get 0 = none :=
  (C4_compose_assoc (⟨fun _ => none⟩ : SpecModel.KeyPathSpec Nat Nat)
    ⟨fun n => some n⟩ (⟨fun n => some n⟩ : SpecModel.KeyPathSpec Nat Nat)).2 0 rfl

/-- C2: at a concrete collection whose single element has an absent read,
`collect_keypath` of `src/src/collections.rs` aborts the process with
"KeyPath access failed in collect_keypath" instead of returning
`Err(InvalidAccess)`, and `KeyPathsIterator::map_keypath` of
`src/src/traits.rs` likewise aborts; in particular no `Ok` (nor any typed
`Result` at all) crosses the boundary on this input. -/
theorem C2_absent_read_aborts :
    Collections.collect_keypath [(none : Option Nat)] id =
      .panicked "KeyPath access failed in collect_keypath"
    ∧ Traits.map_keypath [(none : Option Nat)] id (fun v => v) =
      .panicked "KeyPath access failed in map_keypath"
    ∧ ∀ r : KeyPathResult (List Nat),
        Collections.collect_keypath [(none : Option Nat)] id ≠ .ok r := by
  refine ⟨rfl, rfl, ?_⟩
  intro r h
  exact RunOutcome.noConfusion h

/-- C8 counterexample: requesting a pool with zero threads does not fail —
with no spawn failure and four available cores the builder succeeds and the
pool gets the automatic thread count, so no `ParallelError` is returned. -/
theorem C8_zero_threads_counterexample :
    Parallel.create_keypath_thread_pool none 4 0 = .ok ⟨4⟩
    ∧ ∀ e : KeyPathError, Parallel.create_keypath_thread_pool none 4 0 ≠ .error e := by
  refine ⟨rfl, ?_⟩
  intro e h
  exact Except.noConfusion h

/-- C8 amended: creating a custom worker pool that fails (a thread-spawn
failure from the operating system) returns `Err(ParallelError)`; requesting
zero threads does not fail — rayon specifies `num_threads == 0` as "select
the thread count automatically" and the pool is created successfully. -/
theorem C8_pool_creation_amended (spawnFailure : Option String)
    (availableParallelism num_threads : Nat) (e : String)
    (h : spawnFailure = some e) :
    Parallel.create_keypath_thread_pool spawnFailure availableParallelism num_threads =
      .error (.ParallelError ("Failed to create thread pool: " ++ e))
    ∧ Parallel.create_keypath_thread_pool none availableParallelism 0 =
      .ok ⟨availableParallelism⟩ := by
  subst h
  exact ⟨rfl, rfl⟩

/-- C8 witness: a concrete spawn failure maps to `ParallelError` while a
concrete zero-thread request succeeds. -/
theorem C8_pool_creation_amended_witness :
    Parallel.create_keypath_thread_pool (some "spawn failed") 4 2 =
      .error (.ParallelError ("Failed to create thread pool: " ++ "spawn failed"))
    ∧ Parallel.create_keypath_thread_pool none 4 0 = .ok ⟨4⟩ :=
  C8_pool_creation_amended (some "spawn failed") 4 2 "spawn failed" rfl

/-- C6: `window_by_keypath` returns `CollectionError` exactly when the
window size is zero or exceeds the collection length; otherwise it returns
`Ok` with `len - w + 1` results, the `i`-th being `f` of the extracted
values of elements `i .. i+w-1`. -/
theorem C6_window_contract {T V R : Type} (collection : List T) (keypath : T → V)
    (w : Nat) (f : List V → R) :
    (w = 0 ∨ w > collection.length →
      Collections.window_by_keypath collection keypath w f =
        .error (.CollectionError ("Invalid window size: " ++ toString w)))
    ∧ (¬(w = 0 ∨ w > collection.length) →
      ∃ out, Collections.window_by_keypath collection keypath w f = .ok out
        ∧ out.length = collection.length - w + 1
        ∧ ∀ i : Nat, i < collection.length - w + 1 →
            out[i]? = some (f (((collection.drop i).take w).map keypath))) := by
  constructor
  · intro h
    simp [Collections.window_by_keypath, h]
  · intro h
    refine ⟨(List.range (collection.length - w + 1)).map fun i =>
      f (((collection.drop i).take w).map keypath), ?_, by simp, ?_⟩
    · simp [Collections.window_by_keypath, h]
    · intro i hi
      rw [List.getElem?_map, List.getElem?_range hi]
      rfl

/-- C6 witness: on the three-element collection `[10, 20, 30]` with the
identity accessor, window size `0` yields `CollectionError` and window size
`2` yields two sums. -/
theorem C6_window_contract_witness :
    Collections.window_by_keypath [10, 20, 30] (fun n : Nat => n) 0
      (fun vs => vs.sum) =
      .error (.CollectionError ("Invalid window size: " ++ toString 0))
    ∧ ∃ out, Collections.window_by_keypath [10, 20, 30] (fun n : Nat => n) 2
          (fun vs => vs.sum) = .ok out
        ∧ out.length = [10, 20, 30].length - 2 + 1
        ∧ ∀ i : Nat, i < [10, 20, 30].length - 2 + 1 →
            out[i]? = some (((([10, 20, 30] : List Nat).drop i).take 2).map
              (fun n : Nat => n)).sum :=
  ⟨(C6_window_contract [10, 20, 30] (fun n => n) 0 (fun vs => vs.sum)).1
      (Or.inl rfl),
   (C6_window_contract [10, 20, 30] (fun n => n) 2 (fun vs => vs.sum)).2
      (by decide)⟩

theorem fold_skip_eq_filterMap {T V B : Type} (kp : T → Option V)
    (f : B → V → B) (l : List T) :
    ∀ init : B,
      l.foldl (fun acc item =>
        match Traits.get_at_keypath item kp with
        | .ok value => f acc value
        | .error _ => acc) init = (l.filterMap kp).foldl f init := by
  induction l with
  | nil => intro init; rfl
  | cons item rest ih =>
    intro init
    simp only [List.foldl_cons]
    cases h : kp item with
    | some v =>
      have hstep : (match Traits.get_at_keypath item kp with
          | Except.ok value => f init value
          | Except.error _ => init) = f init v := by
        simp [Traits.get_at_keypath, h]
      rw [hstep]
      simp only [List.filterMap_cons, h, List.foldl_cons]
      exact ih (f init v)
    | none =>
      have hstep : (match Traits.get_at_keypath item kp with
          | Except.ok value => f init value
          | Except.error _ => init) = init := by
        simp [Traits.get_at_keypath, h]
      rw [hstep]
      simp only [List.filterMap_cons, h]
      exact ih init

theorem collect_loop_eq_filterMap {T V : Type} (kp : T → Option V) (l : List T) :
    ∀ acc : List V,
      l.foldl (fun result item =>
        match Traits.get_at_keypath item kp with
        | .ok value => result ++ [value]
        | .error _ => result) acc = acc ++ l.filterMap kp := by
  induction l with
  | nil => intro acc; simp
  | cons item rest ih =>
    intro acc
    simp only [List.foldl_cons]
    cases h : kp item with
    | some v =>
      have hstep : (match Traits.get_at_keypath item kp with
          | Except.ok value => acc ++ [value]
          | Except.error _ => acc) = acc ++ [v] := by
        simp [Traits.get_at_keypath, h]
      rw [hstep]
      simp only [List.filterMap_cons, h, ih (acc ++ [v])]
      simp
    | none =>
      have hstep : (match Traits.get_at_keypath item kp with
          | Except.ok value => acc ++ [value]
          | Except.error _ => acc) = acc := by
        simp [Traits.get_at_keypath, h]
      rw [hstep]
      simp only [List.filterMap_cons, h]
      exact ih acc

theorem partition_loop_eq_filter {T V : Type} (kp : T → Option V)
    (p : V → Bool) (l : List T) :
    ∀ accL accR : List T,
      l.foldl (fun halves item =>
        match Traits.get_at_keypath item kp with
        | .ok value =>
          if p value then (halves.1 ++ [item], halves.2)
          else (halves.1, halves.2 ++ [item])
        | .error _ => halves) (accL, accR) =
      (accL ++ l.filter fun item => ((kp item).map p).getD false,
       accR ++ l.filter fun item => ((kp item).map fun v => !p v).getD false) := by
  induction l with
  | nil => intro accL accR; simp
  | cons item rest ih =>
    intro accL accR
    simp only [List.foldl_cons]
    cases h : kp item with
    | some v =>
      have hstep : (match Traits.get_at_keypath item kp with
          | Except.ok value =>
            if p value then ((accL, accR).1 ++ [item], (accL, accR).2)
            else ((accL, accR).1, (accL, accR).2 ++ [item])
          | Except.error _ => (accL, accR)) =
          (if p v then (accL ++ [item], accR) else (accL, accR ++ [item])) := by
        simp [Traits.get_at_keypath, h]
      rw [hstep]
      cases hp : p v with
      | true =>
        rw [if_pos rfl, ih (accL ++ [item]) accR]
        simp [List.filter_cons, h, hp]
      | false =>
        rw [if_neg (by simp), ih accL (accR ++ [item])]
        simp [List.filter_cons, h, hp]
    | none =>
      have hstep : (match Traits.get_at_keypath item kp with
          | Except.ok value =>
            if p value then ((accL, accR).1 ++ [item], (accL, accR).2)
            else ((accL, accR).1, (accL, accR).2 ++ [item])
          | Except.error _ => (accL, accR)) = (accL, accR) := by
        simp [Traits.get_at_keypath, h]
      rw [hstep]
      simp only [List.filter_cons, h]
      exact ih accL accR

theorem group_loop_skips_absent {T V : Type} [DecidableEq V]
    (kp : T → Option V) (g : V → V) (l : List T) :
    ∀ groups : List (V × List T),
      l.foldl (fun groups item =>
        match Traits.get_at_keypath item kp with
        | .ok value => Traits.insertGroup groups (g value) item
        | .error _ => groups) groups =
      (l.filter fun item => (kp item).isSome).foldl (fun groups item =>
        match Traits.get_at_keypath item kp with
        | .ok value => Traits.insertGroup groups (g value) item
        | .error _ => groups) groups := by
  induction l with
  | nil => intro groups; rfl
  | cons item rest ih =>
    intro groups
    rw [List.foldl_cons, List.filter_cons]
    cases h : kp item with
    | some v =>
      have hstep : (match Traits.get_at_keypath item kp with
          | Except.ok value => Traits.insertGroup groups (g value) item
          | Except.error _ => groups) = Traits.insertGroup groups (g v) item := by
        simp [Traits.get_at_keypath, h]
      simp only [h, Option.isSome_some, if_pos, List.foldl_cons, hstep]
      exact ih _
    | none =>
      have hstep : (match Traits.get_at_keypath item kp with
          | Except.ok value => Traits.insertGroup groups (g value) item
          | Except.error _ => groups) = groups := by
        simp [Traits.get_at_keypath, h]
      simp only [h, Option.isSome_none, Bool.false_eq_true, if_neg, hstep,
        not_false_eq_true]
      exact ih _

/-- C9: the iterator-trait `fold_keypath` and `collect_keypath` and the
`Vec` implementations of `group_by_keypath` and `partition_by_keypath` in
`src/src/traits.rs` always return `Ok`; an element whose read is absent is
silently skipped: the fold accumulates exactly the present values, collect
returns exactly the present values, grouping ignores absent elements
entirely, and each partition half holds only present elements matching (or
failing) the predicate. -/
theorem C9_traits_skip_absent {T V B : Type} [DecidableEq V] (l : List T)
    (kp : T → Option V) (init : B) (f : B → V → B) (g : V → V) (p : V → Bool) :
    Traits.fold_keypath l kp init f = .ok ((l.filterMap kp).foldl f init)
    ∧ Traits.collect_keypath l kp = .ok (l.filterMap kp)
    ∧ Traits.group_by_keypath l kp g =
        Traits.group_by_keypath (l.filter fun item => (kp item).isSome) kp g
    ∧ Traits.partition_by_keypath l kp p =
        .ok (l.filter fun item => ((kp item).map p).getD false,
             l.filter fun item => ((kp item).map fun v => !p v).getD false) := by
  refine ⟨?_, ?_, ?_, ?_⟩
  · simp only [Traits.fold_keypath, Except.ok.injEq]
    exact fold_skip_eq_filterMap kp f l init
  · simp only [Traits.collect_keypath, Except.ok.injEq]
    simpa using collect_loop_eq_filterMap kp l []
  · simp only [Traits.group_by_keypath, Except.ok.injEq]
    exact group_loop_skips_absent kp g l []
  · simp only [Traits.partition_by_keypath, Except.ok.injEq]
    simpa using partition_loop_eq_filter kp p l [] []

theorem foldl_extract_assoc {T B : Type} (kp : T → B) (f : B → B → B)
    (hassoc : ∀ a b c, f (f a b) c = f a (f b c)) (c : List T) :
    ∀ a b : B,
      c.foldl (fun acc item => f acc (kp item)) (f a b) =
        f a (c.foldl (fun acc item => f acc (kp item)) b) := by
  induction c with
  | nil => intro a b; rfl
  | cons item rest ih =>
    intro a b
    simp only [List.foldl_cons]
    rw [hassoc a b (kp item)]
    exact ih a (f b (kp item))

theorem par_fold_chunks_eq {T B : Type} (kp : T → B) (f : B → B → B)
    (hassoc : ∀ a b c, f (f a b) c = f a (f b c)) (init : B)
    (hidr : ∀ a, f a init = a)
    (chunks : List (List T)) :
    ∀ b : B,
      List.foldl f b (chunks.map fun chunk =>
        chunk.foldl (fun acc item => f acc (kp item)) init) =
      chunks.flatten.foldl (fun acc item => f acc (kp item)) b := by
  induction chunks with
  | nil => intro b; rfl
  | cons c cs ih =>
    intro b
    simp only [List.map_cons, List.foldl_cons, List.flatten_cons,
      List.foldl_append]
    have h1 := foldl_extract_assoc kp f hassoc c b init
    rw [hidr b] at h1
    rw [← h1]
    exact ih _

/-- C3 counterexample: `Nat` addition is associative and commutative, yet
the two-phase parallel fold with `init = 1` over the one-element collection
`[5]` (split as one chunk) returns `7` while the sequential left fold
returns `6`: the parallel engine seeds `init` once per chunk fold and once
more in the final reduce. -/
theorem C3_counterexample :
    (∀ a b c : Nat, (a + b) + c = a + (b + c))
    ∧ (∀ a b : Nat, a + b = b + a)
    ∧ ([[5]] : List (List Nat)).flatten = [5]
    ∧ Parallel.par_fold_keypath [[5]] (fun t : Nat => t) 1 (fun a b => a + b) =
        .ok 7
    ∧ HigherOrder.fold_keypath [5] (fun t : Nat => t) 1 (fun a b => a + b) =
        .ok 6 :=
  ⟨fun a b c => Nat.add_assoc a b c, fun a b => Nat.add_comm a b, rfl, rfl, rfl⟩

/-- C3 amended: for every chunking, keypath, and combining function `f`
that is associative and commutative and for which `init` is an identity
element (`f init a = a`), the two-phase parallel fold (per-chunk fold
seeded with `init`, then a final reduce across chunk results) returns the
same value as the sequential left fold with the same `init` and `f`. -/
theorem C3_parallel_fold_amended {T B : Type} (chunks : List (List T))
    (keypath : T → B) (init : B) (f : B → B → B)
    (hassoc : ∀ a b c, f (f a b) c = f a (f b c))
    (hcomm : ∀ a b, f a b = f b a)
    (hid : ∀ a, f init a = a) :
    Parallel.par_fold_keypath chunks keypath init f =
      HigherOrder.fold_keypath chunks.flatten keypath init f := by
  simp only [Parallel.par_fold_keypath, HigherOrder.fold_keypath,
    Except.ok.injEq]
  exact par_fold_chunks_eq keypath f hassoc init
    (fun a => (hcomm a init).trans (hid a)) chunks init

/-- C3 witness: with `init = 0` (an identity for addition) the parallel and
sequential folds agree on a concrete split collection. -/
theorem C3_parallel_fold_amended_witness :
    Parallel.par_fold_keypath [[1, 2], [3]] (fun t : Nat => t) 0
      (fun a b => a + b) =
    HigherOrder.fold_keypath ([[1, 2], [3]] : List (List Nat)).flatten
      (fun t => t) 0 (fun a b => a + b) :=
  C3_parallel_fold_amended [[1, 2], [3]] (fun t => t) 0 (fun a b => a + b)
    (fun a b c => Nat.add_assoc a b c) (fun a b => Nat.add_comm a b)
    (fun a => Nat.zero_add a)

theorem find_async_eq_find {T V : Type} (kp : T → V) (p : V → Bool)
    (l : List T) :
    AsyncOps.find_by_keypath_async l kp p =
      .ok (l.find? fun item => p (kp item)) := by
  induction l with
  | nil => rfl
  | cons item rest ih =>
    cases hp : p (kp item) with
    | true =>
      simp [AsyncOps.find_by_keypath_async, hp, List.find?_cons_of_pos]
    | false =>
      simp [AsyncOps.find_by_keypath_async, hp, List.find?_cons_of_neg, ih]

/-- C1 counterexample: on the collection `[1, 2]` with the identity
accessor and the always-true predicate, a parallel `find` whose second
chunk completes first returns element `2`, while the sequential `find`
returns the first match `1` — parallel `find` does not always return the
first match in index order. -/
theorem C1_counterexample :
    ([[2], [1]] : List (List Nat)).Perm [[1], [2]]
    ∧ ([[1], [2]] : List (List Nat)).flatten = [1, 2]
    ∧ Parallel.par_find_by_keypath [[2], [1]] (fun t : Nat => t)
        (fun _ => true) = .ok (some 2)
    ∧ HigherOrder.find_by_keypath [1, 2] (fun t : Nat => t)
        (fun _ => true) = .ok (some 1)
    ∧ (2 : Nat) ≠ 1 := by
  refine ⟨by decide, rfl, rfl, rfl, by decide⟩

/-- C1 amended: for every collection, chunking of it, pure accessor,
transform, and predicate, the operations `map`, `filter`, `collect`,
`count`, `any`, `all` yield value-identical results (same elements, same
order) under the Sequential, Parallel, and Asynchronous strategies, and
asynchronous `find` equals sequential `find`; parallel `find`, however,
only agrees with sequential `find` on whether a match exists and always
returns a matching element of the collection — with several matches the
element returned depends on worker completion order and need not be the
first in index order. -/
theorem C1_strategy_equivalence_amended {T V R : Type} (l : List T)
    (chunks : List (List T)) (hchunks : chunks.flatten = l)
    (keypath : T → V) (f : V → R) (p : V → Bool) :
    Parallel.par_map_keypath chunks keypath f =
      HigherOrder.map_keypath_collection l keypath f
    ∧ Parallel.par_filter_by_keypath chunks keypath p =
      HigherOrder.filter_by_keypath l keypath p
    ∧ Parallel.par_collect_keypath chunks keypath =
      HigherOrder.collect_keypath l keypath
    ∧ Parallel.par_count_by_keypath chunks keypath p =
      Collections.count_by_keypath l keypath p
    ∧ Parallel.par_any_by_keypath chunks keypath p =
      Collections.any_by_keypath l keypath p
    ∧ Parallel.par_all_by_keypath chunks keypath p =
      Collections.all_by_keypath l keypath p
    ∧ AsyncOps.map_keypath_async l keypath f =
      HigherOrder.map_keypath_collection l keypath f
    ∧ AsyncOps.filter_by_keypath_async l keypath p =
      HigherOrder.filter_by_keypath l keypath p
    ∧ AsyncOps.find_by_keypath_async l keypath p =
      HigherOrder.find_by_keypath l keypath p
    ∧ ∀ completed : List (List T), completed.Perm chunks →
        ((Parallel.par_find_by_keypath completed keypath p = .ok none) ↔
          (HigherOrder.find_by_keypath l keypath p = .ok none))
        ∧ ∀ t, Parallel.par_find_by_keypath completed keypath p =
            .ok (some t) → p (keypath t) = true ∧ t ∈ l := by
  subst hchunks
  refine ⟨?_, ?_, ?_, ?_, ?_, ?_, rfl, rfl, ?_, ?_⟩
  · simp [Parallel.par_map_keypath, HigherOrder.map_keypath_collection,
      List.map_flatten]
  · simp [Parallel.par_filter_by_keypath, HigherOrder.filter_by_keypath,
      List.filter_flatten]
  · simp [Parallel.par_collect_keypath, HigherOrder.collect_keypath,
      List.map_flatten]
  · simp [Parallel.par_count_by_keypath, Collections.count_by_keypath,
      List.countP_flatten]
  · simp [Parallel.par_any_by_keypath, Collections.any_by_keypath,
      List.any_flatten]
  · simp [Parallel.par_all_by_keypath, Collections.all_by_keypath,
      List.all_flatten]
  · exact find_async_eq_find keypath p chunks.flatten
  · intro completed hperm
    have hflat : completed.flatten.Perm chunks.flatten := hperm.flatten
    constructor
    · simp only [Parallel.par_find_by_keypath, HigherOrder.find_by_keypath,
        Except.ok.injEq]
      rw [List.find?_eq_none, List.find?_eq_none]
      constructor
      · intro h x hx
        exact h x (hflat.mem_iff.mpr hx)
      · intro h x hx
        exact h x (hflat.mem_iff.mp hx)
    · intro t ht
      simp only [Parallel.par_find_by_keypath, Except.ok.injEq] at ht
      have h1 := @List.find?_some T (fun item => p (keypath item)) t
        completed.flatten ht
      exact ⟨h1, hflat.mem_iff.mp (List.mem_of_find?_eq_some ht)⟩

/-- C1 witness: the strategy-equivalence theorem instantiated at a concrete
collection, chunking, accessor, transform, and predicate. -/
theorem C1_strategy_equivalence_amended_witness :
    Parallel.par_map_keypath [[1], [2, 3]] (fun n : Nat => n)
      (fun v => v * 2) =
    HigherOrder.map_keypath_collection [1, 2, 3] (fun n : Nat => n)
      (fun v => v * 2) :=
  (C1_strategy_equivalence_amended [1, 2, 3] [[1], [2, 3]] rfl
    (fun n => n) (fun v => v * 2) (fun v => decide (v % 2 = 1))).1

/-- C7: for a comparator that is a total preorder on the extracted values
(which `slice::sort_by` and rayon's `par_sort_by` require), the sequential
and parallel sorts compute the same result, sorting an already-sorted
collection leaves it unchanged, applying sort twice equals applying it
once, and the sort is stable: any subsequence of mutually-tied elements of
the input is still a subsequence (in the same relative order) of the
output. -/
theorem C7_sort_stable {T V : Type} (l : List T) (keypath : T → V)
    (compare : V → V → Ordering)
    (htrans : ∀ x y z : V, (compare x y).isLE = true →
      (compare y z).isLE = true → (compare x z).isLE = true)
    (htotal : ∀ x y : V, ((compare x y).isLE || (compare y x).isLE) = true) :
    Parallel.par_sort_by_keypath l keypath compare =
      HigherOrder.sort_by_keypath l keypath compare
    ∧ (l.Pairwise
        (fun a b => (compare (keypath a) (keypath b)).isLE = true) →
        HigherOrder.sort_by_keypath l keypath compare = .ok l)
    ∧ (∀ sorted, HigherOrder.sort_by_keypath l keypath compare = .ok sorted →
        HigherOrder.sort_by_keypath sorted keypath compare = .ok sorted)
    ∧ ∀ c : List T,
        c.Pairwise (fun a b => compare (keypath a) (keypath b) = .eq) →
        c.Sublist l →
        ∀ sorted, HigherOrder.sort_by_keypath l keypath compare = .ok sorted →
          c.Sublist sorted := by
  have letrans : ∀ a b c : T,
      (compare (keypath a) (keypath b)).isLE = true →
      (compare (keypath b) (keypath c)).isLE = true →
      (compare (keypath a) (keypath c)).isLE = true :=
    fun a b c hab hbc => htrans _ _ _ hab hbc
  have letotal : ∀ a b : T,
      ((compare (keypath a) (keypath b)).isLE ||
        (compare (keypath b) (keypath a)).isLE) = true :=
    fun a b => htotal _ _
  refine ⟨rfl, ?_, ?_, ?_⟩
  · intro h
    simp only [HigherOrder.sort_by_keypath, Except.ok.injEq]
    exact List.mergeSort_of_sorted h
  · intro sorted h
    have heq : l.mergeSort
        (fun a b => (compare (keypath a) (keypath b)).isLE) = sorted := by
      simpa [HigherOrder.sort_by_keypath] using h
    subst heq
    simp only [HigherOrder.sort_by_keypath, Except.ok.injEq]
    exact List.mergeSort_of_sorted (List.sorted_mergeSort letrans letotal l)
  · intro c hpc hsub sorted h
    have heq : l.mergeSort
        (fun a b => (compare (keypath a) (keypath b)).isLE) = sorted := by
      simpa [HigherOrder.sort_by_keypath] using h
    subst heq
    refine List.sublist_mergeSort letrans letotal ?_ hsub
    refine hpc.imp ?_
    intro a b hab
    rw [hab]
    rfl

/-- C7 witness: the sort theorem instantiated with the boolean comparator;
sorting the already-sorted collection `[false, true]` leaves it
unchanged. -/
theorem C7_sort_stable_witness :
    HigherOrder.sort_by_keypath [false, true] (fun b => b)
      (fun a b : Bool => compare a b) = .ok [false, true] :=
  (C7_sort_stable [false, true] (fun b => b) (fun a b => compare a b)
    (by decide) (by decide)).2.1 (by decide)

end RustPreludePlus
